import Mathlib

/-!
Verification of the `patreader` Gravis Ultrasound .PAT decoder.

The program is embedded shallowly: a file is a `List Nat` of byte values, and
the Python file object (seekable cursor, short reads at end of file) is the
`PyFile` structure.  `Patreader.read` mirrors `patreader.read` statement by
statement; a `read` that raises an uncaught exception in Python (struct.error)
is modelled as `none`.
-/

namespace Patreader

/-- Error kinds of the decoder, from the `Error` IntEnum of the source. -/
inductive Error where
  | OK
  | BAD_HEADER
  | TOO_MANY_INSTRUMENTS
  | TOO_MANY_LAYERS
deriving DecidableEq, Repr

/-- Mode flag bits, from the `Mode` IntFlag of the source. -/
def Mode.SIXTEEN_BIT : Nat := 1

def Mode.UNSIGNED : Nat := 2

def Mode.LOOPING : Nat := 4

def Mode.PINGPONG : Nat := 8

def Mode.REVERSE : Nat := 16

def Mode.SUSTAIN : Nat := 32

def Mode.ENVELOPE : Nat := 64

def Mode.CLAMPED : Nat := 128

/-- `FRACTION_BITS` constant of the source (unused by `read`). -/
def FRACTION_BITS : Nat := 12

/-- The `Audio` dataclass: decoded PCM payload and its sample width. -/
structure Audio where
  pcm_data : List Nat
  sample_width_in_bytes : Nat
deriving DecidableEq, Repr

/-- The `Result` dataclass: error kind, message, decoded samples. -/
structure Result where
  error : Error
  error_msg : String
  samples : List Audio
deriving DecidableEq, Repr

/-- A Python binary file object: the byte contents plus the read cursor. -/
structure PyFile where
  data : List Nat
  pos : Nat
deriving DecidableEq, Repr

/-- `f.read(n)`: return up to `n` bytes from the cursor, advancing it by the
number of bytes actually available (a read at end of file returns fewer
bytes, without error). -/
def PyFile.read (f : PyFile) (n : Nat) : List Nat × PyFile :=
  let bs := (f.data.drop f.pos).take n
  (bs, ⟨f.data, f.pos + bs.length⟩)

/-- `f.seek(n, io.SEEK_SET)`: place the cursor at absolute offset `n`. -/
def PyFile.seekSet (f : PyFile) (n : Nat) : PyFile :=
  ⟨f.data, n⟩

/-- `f.seek(n, io.SEEK_CUR)`: advance the cursor by `n`. -/
def PyFile.seekCur (f : PyFile) (n : Nat) : PyFile :=
  ⟨f.data, f.pos + n⟩

/-- `int.from_bytes(bs, 'little')`. -/
def intFromBytesLE : List Nat → Nat
  | [] => 0
  | b :: bs => b + 256 * intFromBytesLE bs

/-- `struct.pack('<h', s)`: the two's-complement little-endian bytes of a
signed 16-bit value. -/
def packInt16LE (s : Int) : List Nat :=
  [(s % 65536).toNat % 256, (s % 65536).toNat / 256]

/-- `struct.unpack('<h', bytes([b0, b1]))`: decode a little-endian signed
16-bit value from two bytes. -/
def unpackInt16LE (b0 b1 : Nat) : Int :=
  if b1 < 128 then (b0 : Int) + 256 * b1 else (b0 : Int) + 256 * b1 - 65536

/-- The 16-bit transcoding loops of `read` (lines 118-131 of the source):
iterate 2-byte little-endian words over the payload.  With `unsigned` set,
each unsigned word `u` is re-packed as the signed value `u - 0x8000`; with it
clear each signed word is unpacked and re-packed unchanged.  `struct`
iteration over an odd-length buffer raises `struct.error`, modelled as
`none`. -/
def transcode16 (unsigned : Bool) : List Nat → Option (List Nat)
  | [] => some []
  | [_] => none
  | b0 :: b1 :: rest =>
    match transcode16 unsigned rest with
    | none => none
    | some t =>
      let s : Int :=
        if unsigned then (b0 : Int) + 256 * b1 - 32768 else unpackInt16LE b0 b1
      some (packInt16LE s ++ t)

/-- The whole 16-bit branch of `read`: the words are packed into
`buf = bytearray(data_length)` from offset 0, so bytes past the available
payload stay zero. -/
def process16 (unsigned : Bool) (data_length : Nat) (data : List Nat) :
    Option (List Nat) :=
  match transcode16 unsigned data with
  | none => none
  | some t => some (t ++ List.replicate (data_length - data.length) 0)

/-- The zero-correction `n += (n == 0)` applied to the instrument and layer
counts (lines 54 and 62 of the source). -/
def zeroCorrect (n : Nat) : Nat :=
  n + (if n = 0 then 1 else 0)

/-- The fixed 96-byte per-sample record head (lines 78-110 of the source):
every seek and read before the payload, in source order.  Returns the decoded
`data_length`, the `modes` byte, and the file cursor left at the payload. -/
def sampleHeader (f : PyFile) : Nat × Nat × PyFile :=
  let f := f.seekCur 7
  let f := (f.read 1).2
  let r := f.read 4
  let data_length := intFromBytesLE r.1
  let f := r.2
  let f := (f.read 4).2
  let f := (f.read 4).2
  let f := (f.read 2).2
  let f := (f.read 4).2
  let f := (f.read 4).2
  let f := (f.read 4).2
  let f := f.seekCur 2
  let f := (f.read 1).2
  let f := f.seekCur 12
  let f := (f.read 1).2
  let f := (f.read 1).2
  let f := (f.read 1).2
  let f := (f.read 1).2
  let f := (f.read 1).2
  let f := (f.read 1).2
  let r2 := f.read 1
  let modes := intFromBytesLE r2.1
  let f := r2.2
  let f := (f.read 2).2
  let f := (f.read 2).2
  let f := f.seekCur 36
  (data_length, modes, f)

/-- One iteration of the sample loop of `read` (lines 77-133): decode the
record head, read the payload, and transcode it when SIXTEEN_BIT is set.
`none` models an uncaught `struct.error`. -/
def readSample (f : PyFile) : Option (Audio × PyFile) :=
  let h := sampleHeader f
  let data_length := h.1
  let modes := h.2.1
  let r := h.2.2.read data_length
  let data := r.1
  let f := r.2
  if (modes &&& Mode.SIXTEEN_BIT) != 0 then
    match process16 ((modes &&& Mode.UNSIGNED) != 0) data_length data with
    | none => none
    | some d => some (⟨d, 2⟩, f)
  else
    some (⟨data, 1⟩, f)

/-- The sample loop of `read`, run `n` times.  A `struct.error` anywhere
aborts the whole call (the samples list built so far is lost with the
exception). -/
def readSamples : Nat → PyFile → Option (List Audio)
  | 0, _ => some []
  | n + 1, f =>
    match readSample f with
    | none => none
    | some (a, f') =>
      match readSamples n f' with
      | none => none
      | some rest => some (a :: rest)

/-- The bytes literal `b'GF1PATCH110'`. -/
def magic110 : List Nat := [71, 70, 49, 80, 65, 84, 67, 72, 49, 49, 48]

/-- The bytes literal `b'GF1PATCH100'`. -/
def magic100 : List Nat := [71, 70, 49, 80, 65, 84, 67, 72, 49, 48, 48]

/-- `patreader.read`, over the bytes of the file at the given path.  `none`
models the call raising an uncaught exception instead of returning a
`Result`. -/
def read (file : List Nat) : Option Result :=
  let f : PyFile := ⟨file, 0⟩
  let r := f.read 11
  let id := r.1
  let f := r.2
  if id ≠ magic110 ∧ id ≠ magic100 then
    some ⟨Error.BAD_HEADER, "Invalid Gravis patch file.", []⟩
  else
    let f := f.seekSet 82
    let r1 := f.read 1
    let num_instruments := zeroCorrect (intFromBytesLE r1.1)
    let f := r1.2
    if num_instruments ≤ 0 then
      some ⟨Error.TOO_MANY_INSTRUMENTS,
        "Cannot handle patches with " ++ toString num_instruments ++
          " instruments.", []⟩
    else
      let f := f.seekSet 151
      let r2 := f.read 1
      let num_layers := zeroCorrect (intFromBytesLE r2.1)
      let f := r2.2
      if num_layers ≤ 0 then
        some ⟨Error.TOO_MANY_LAYERS,
          "Cannot handle patches with " ++ toString num_layers ++
            " layers.", []⟩
      else
        let f := f.seekSet 198
        let r3 := f.read 1
        let num_samples := intFromBytesLE r3.1
        let f := r3.2
        let f := f.seekCur 40
        match readSamples num_samples f with
        | none => none
        | some samples => some ⟨Error.OK, "", samples⟩

/-! ### Spec-side definitions (for the transcoder refinement claim) -/

/-- The spec's words for "write `s` as little-endian signed 16-bit": the
two's-complement bit pattern of `s`, low byte first. -/
def specSigned16LE (s : Int) : List Nat :=
  [((s + 65536) % 65536).toNat % 256, ((s + 65536) % 65536).toNat / 256]

/-- A payload given as a list of 2-byte little-endian words. -/
def wordsToBytes : List (Nat × Nat) → List Nat
  | [] => []
  | w :: ws => w.1 :: w.2 :: wordsToBytes ws

/-- The spec's words for the unsigned transcoder: for each 16-bit
little-endian unsigned value `u`, compute `s = u - 32768` and write `s` as
little-endian signed 16-bit. -/
def specTranscodeUnsigned : List (Nat × Nat) → List Nat
  | [] => []
  | w :: ws =>
    specSigned16LE ((w.1 : Int) + 256 * w.2 - 32768) ++ specTranscodeUnsigned ws

/-! ### Concrete input files used as witnesses and counterexamples -/

/-- A single-sample patch file: valid magic, instrument byte 1 at offset 82,
layer byte 1 at offset 151, sample-count byte 1 at offset 198, the given
4-byte little-endian `data_length` field at offset 247, the given modes byte
at offset 294, and the given payload bytes from offset 335 on. -/
def sampleFile (dl : List Nat) (modes : Nat) (payload : List Nat) : List Nat :=
  magic110 ++ List.replicate 71 0
    ++ [1] ++ List.replicate 68 0
    ++ [1] ++ List.replicate 46 0
    ++ [1]
    ++ List.replicate 48 0
    ++ dl
    ++ List.replicate 43 0
    ++ [modes]
    ++ List.replicate 40 0
    ++ payload

/-- SIXTEEN_BIT sample declaring `data_length = 1` with a 1-byte payload:
the 16-bit word iteration sees an odd-length buffer. -/
def oddFile : List Nat := sampleFile [1, 0, 0, 0] 1 [171]

/-- 8-bit sample declaring `data_length = 4` but with only 2 payload bytes
in the file: a truncated patch. -/
def truncFile8 : List Nat := sampleFile [4, 0, 0, 0] 0 [16, 32]

/-- SIXTEEN_BIT|UNSIGNED sample declaring `data_length = 4` but with only 2
payload bytes in the file: a truncated 16-bit patch. -/
def truncFile16 : List Nat := sampleFile [4, 0, 0, 0] 3 [0, 128]

/-- Valid magic, all other header bytes zero: instrument and layer bytes are
0 (corrected to 1) and the sample-count byte at offset 198 is 0. -/
def okFile : List Nat := magic110 ++ List.replicate 188 0

/-! ### Helper lemmas -/

theorem zeroCorrect_pos (n : Nat) : 1 ≤ zeroCorrect n := by
  unfold zeroCorrect; split <;> omega

theorem packInt16LE_eq_spec (s : Int) : packInt16LE s = specSigned16LE s := by
  unfold packInt16LE specSigned16LE
  have h : (s + 65536) % 65536 = s % 65536 := by omega
  rw [h]

theorem packInt16LE_unpackInt16LE (b0 b1 : Nat) (h0 : b0 < 256)
    (h1 : b1 < 256) : packInt16LE (unpackInt16LE b0 b1) = [b0, b1] := by
  unfold packInt16LE unpackInt16LE
  split
  · have hm : ((b0 : Int) + 256 * b1) % 65536 = (b0 : Int) + 256 * b1 := by
      omega
    rw [hm]
    have ht : ((b0 : Int) + 256 * b1).toNat = b0 + 256 * b1 := by omega
    rw [ht]
    have e0 : (b0 + 256 * b1) % 256 = b0 := by omega
    have e1 : (b0 + 256 * b1) / 256 = b1 := by omega
    rw [e0, e1]
  · have hm : ((b0 : Int) + 256 * b1 - 65536) % 65536 = (b0 : Int) + 256 * b1 := by
      omega
    rw [hm]
    have ht : ((b0 : Int) + 256 * b1).toNat = b0 + 256 * b1 := by omega
    rw [ht]
    have e0 : (b0 + 256 * b1) % 256 = b0 := by omega
    have e1 : (b0 + 256 * b1) / 256 = b1 := by omega
    rw [e0, e1]

theorem transcode16_length (u : Bool) :
    ∀ (data t : List Nat), transcode16 u data = some t →
      t.length = data.length
  | [], _, h => by
    simp only [transcode16, Option.some.injEq] at h
    simp [← h]
  | [_], _, h => by simp [transcode16] at h
  | b0 :: b1 :: rest, t, h => by
    simp only [transcode16] at h
    cases hr : transcode16 u rest with
    | none => simp [hr] at h
    | some tr =>
      simp only [hr, Option.some.injEq] at h
      subst h
      have ih := transcode16_length u rest tr hr
      simp [packInt16LE, ih]

theorem transcode16_even (u : Bool) :
    ∀ (data : List Nat), data.length % 2 = 0 →
      ∃ t, transcode16 u data = some t
  | [], _ => ⟨[], rfl⟩
  | [_], h => by simp at h
  | b0 :: b1 :: rest, h => by
    have hr : rest.length % 2 = 0 := by simp at h; omega
    obtain ⟨tr, htr⟩ := transcode16_even u rest hr
    refine ⟨packInt16LE
      (if u then (b0 : Int) + 256 * b1 - 32768 else unpackInt16LE b0 b1)
        ++ tr, ?_⟩
    simp only [transcode16, htr]

theorem transcode16_odd (u : Bool) :
    ∀ (data : List Nat), data.length % 2 = 1 → transcode16 u data = none
  | [], h => by simp at h
  | [_], _ => rfl
  | b0 :: b1 :: rest, h => by
    have hr : rest.length % 2 = 1 := by simp at h; omega
    have ih := transcode16_odd u rest hr
    simp only [transcode16, ih]

theorem transcode16_signed_id :
    ∀ (data : List Nat), (∀ b ∈ data, b < 256) → data.length % 2 = 0 →
      transcode16 false data = some data
  | [], _, _ => rfl
  | [_], _, h => by simp at h
  | b0 :: b1 :: rest, hb, he => by
    have hr := transcode16_signed_id rest
      (fun b hbm => hb b (by simp [hbm]))
      (by simp at he; omega)
    simp only [transcode16, hr, Bool.false_eq_true, if_false]
    rw [packInt16LE_unpackInt16LE b0 b1 (hb b0 (by simp)) (hb b1 (by simp))]
    rfl

/-! ### Claim theorems -/

/-- C7: the zero-correction applied to the instrument-count byte (and
identically to the layer-count byte) maps 0 to 1, is idempotent, and leaves
any nonzero count unchanged. -/
theorem zeroCorrect_zero_to_one_idempotent (n : Nat) :
    zeroCorrect 0 = 1 ∧ zeroCorrect (zeroCorrect n) = zeroCorrect n ∧
      (n ≠ 0 → zeroCorrect n = n) := by
  refine ⟨rfl, ?_, ?_⟩ <;> unfold zeroCorrect <;> split <;> simp_all

theorem zeroCorrect_zero_to_one_idempotent_witness :
    zeroCorrect 0 = 1 ∧ zeroCorrect (zeroCorrect 5) = zeroCorrect 5 ∧
      zeroCorrect 5 = 5 :=
  ⟨(zeroCorrect_zero_to_one_idempotent 5).1,
    (zeroCorrect_zero_to_one_idempotent 5).2.1,
    (zeroCorrect_zero_to_one_idempotent 5).2.2 (by decide)⟩

/-- C1: with SIXTEEN_BIT and UNSIGNED both set, the transcoding loop maps
each 16-bit little-endian unsigned word `u` of the payload to `u - 32768`
re-encoded as a little-endian signed 16-bit value; in particular
`[0x00, 0x80]` (32768) becomes `[0x00, 0x00]` (0) and `[0xFF, 0xFF]` (65535)
becomes `[0xFF, 0x7F]` (32767). -/
theorem unsigned_transcode_shifts_by_32768 :
    (∀ ws : List (Nat × Nat),
      transcode16 true (wordsToBytes ws) = some (specTranscodeUnsigned ws))
    ∧ transcode16 true [0, 128] = some [0, 0]
    ∧ transcode16 true [255, 255] = some [255, 127] := by
  refine ⟨?_, by decide, by decide⟩
  intro ws
  induction ws with
  | nil => rfl
  | cons w ws ih =>
    simp only [wordsToBytes, specTranscodeUnsigned, transcode16, ih,
      if_true, packInt16LE_eq_spec]

/-- C6: with SIXTEEN_BIT set and UNSIGNED clear, transcoding a full
even-length payload is byte-identical to the input, and the produced buffer
has the same length as the input (the step never changes `data_length`). -/
theorem signed_transcode_is_identity (data : List Nat)
    (hb : ∀ b ∈ data, b < 256) (he : data.length % 2 = 0) :
    transcode16 false data = some data ∧
      process16 false data.length data = some data := by
  have h := transcode16_signed_id data hb he
  refine ⟨h, ?_⟩
  simp [process16, h]

theorem signed_transcode_is_identity_witness :
    transcode16 false [52, 18] = some [52, 18] ∧
      process16 false (List.length [52, 18]) [52, 18] = some [52, 18] :=
  signed_transcode_is_identity [52, 18] (by decide) (by decide)

/-- C10: when the modes byte has SIXTEEN_BIT set and the available payload
has odd length, the word iteration raises an uncaught `struct.error`
(modelled as `none`) instead of producing a `Result`; the concrete file
`oddFile` (declared `data_length = 1`, modes byte 1) makes the whole `read`
raise. -/
theorem odd_sixteen_bit_payload_raises :
    (∀ f : PyFile,
      (((sampleHeader f).2.1 &&& Mode.SIXTEEN_BIT) != 0) = true →
      (((sampleHeader f).2.2.read (sampleHeader f).1).1.length) % 2 = 1 →
      readSample f = none)
    ∧ read oddFile = none := by
  constructor
  · intro f hbit hodd
    simp only [readSample, hbit, if_true, process16,
      transcode16_odd _ _ hodd]
  · rfl

theorem odd_sixteen_bit_payload_raises_witness :
    readSample ⟨oddFile, 239⟩ = none :=
  odd_sixteen_bit_payload_raises.1 ⟨oddFile, 239⟩ (by decide) (by decide)

/-- C5: a decoded sample has `sample_width_in_bytes = 2` exactly when the
modes byte has SIXTEEN_BIT set and 1 otherwise (independent of UNSIGNED,
which the statement never consults), and without SIXTEEN_BIT the payload is
emitted unchanged. -/
theorem sample_width_matches_sixteen_bit (f : PyFile) (a : Audio)
    (f' : PyFile) (h : readSample f = some (a, f')) :
    a.sample_width_in_bytes =
        (if ((sampleHeader f).2.1 &&& Mode.SIXTEEN_BIT) != 0 then 2 else 1)
      ∧ (((sampleHeader f).2.1 &&& Mode.SIXTEEN_BIT) = 0 →
          a.pcm_data = ((sampleHeader f).2.2.read (sampleHeader f).1).1) := by
  simp only [readSample] at h
  split at h
  · rename_i hbit
    split at h
    · exact absurd h (by simp)
    · simp only [Option.some.injEq, Prod.mk.injEq] at h
      obtain ⟨h1, h2⟩ := h
      subst h1
      refine ⟨by simp [hbit], ?_⟩
      intro hz
      rw [hz] at hbit
      simp at hbit
  · rename_i hbit
    simp only [Option.some.injEq, Prod.mk.injEq] at h
    obtain ⟨h1, h2⟩ := h
    subst h1
    exact ⟨by simp [hbit], fun _ => rfl⟩

theorem sample_width_matches_sixteen_bit_witness :
    ((⟨[16, 32], 1⟩ : Audio)).sample_width_in_bytes =
        (if ((sampleHeader ⟨truncFile8, 239⟩).2.1 &&& Mode.SIXTEEN_BIT) != 0
          then 2 else 1)
      ∧ (((sampleHeader ⟨truncFile8, 239⟩).2.1 &&& Mode.SIXTEEN_BIT) = 0 →
          ((⟨[16, 32], 1⟩ : Audio)).pcm_data =
            ((sampleHeader ⟨truncFile8, 239⟩).2.2.read
              (sampleHeader ⟨truncFile8, 239⟩).1).1) :=
  sample_width_matches_sixteen_bit ⟨truncFile8, 239⟩ ⟨[16, 32], 1⟩
    ⟨truncFile8, 337⟩ (by rfl)

/-- The buffer the 16-bit branch produces on a (possibly short) payload: the
transcoded words followed by the zero bytes of `bytearray(data_length)` that
were never written. -/
def paddedOut (unsigned : Bool) (dl : Nat) (data : List Nat) : List Nat :=
  (transcode16 unsigned data).getD [] ++ List.replicate (dl - data.length) 0

/-- C2 (amended): on a truncated payload `read` does not surface an error.
Without SIXTEEN_BIT the sample keeps the short available payload unchanged;
with SIXTEEN_BIT and an even number of available bytes the sample's buffer
is the transcoded words zero-padded up to `data_length`. -/
theorem truncation_returns_short_or_padded (f : PyFile) (dl m : Nat)
    (g : PyFile) (h : sampleHeader f = (dl, m, g)) :
    ((m &&& Mode.SIXTEEN_BIT) = 0 →
      readSample f = some (⟨(g.read dl).1, 1⟩, (g.read dl).2))
    ∧ (((m &&& Mode.SIXTEEN_BIT) != 0) = true →
      (g.read dl).1.length % 2 = 0 →
      readSample f =
          some (⟨paddedOut ((m &&& Mode.UNSIGNED) != 0) dl (g.read dl).1, 2⟩,
            (g.read dl).2)
        ∧ (paddedOut ((m &&& Mode.UNSIGNED) != 0) dl (g.read dl).1).length
            = dl
        ∧ (paddedOut ((m &&& Mode.UNSIGNED) != 0) dl (g.read dl).1).drop
              (g.read dl).1.length
            = List.replicate (dl - (g.read dl).1.length) 0) := by
  have hle : (g.read dl).1.length ≤ dl := by
    simp [PyFile.read]
  constructor
  · intro hz
    simp [readSample, h, hz]
  · intro hbit heven
    obtain ⟨t, ht⟩ :=
      transcode16_even ((m &&& Mode.UNSIGNED) != 0) _ heven
    have hlen := transcode16_length _ _ _ ht
    refine ⟨?_, ?_, ?_⟩
    · simp only [readSample, h, hbit, if_true, process16, ht, paddedOut,
        Option.getD_some]
    · simp [paddedOut, ht, hlen]
      omega
    · simp only [paddedOut, ht, Option.getD_some]
      rw [← hlen, List.drop_left]

set_option maxRecDepth 10000 in
theorem truncation_returns_short_or_padded_witness :
    readSample ⟨truncFile16, 239⟩ =
        some (⟨paddedOut ((3 &&& Mode.UNSIGNED) != 0) 4
            ((PyFile.read ⟨truncFile16, 335⟩ 4).1), 2⟩,
          (PyFile.read ⟨truncFile16, 335⟩ 4).2)
      ∧ (paddedOut ((3 &&& Mode.UNSIGNED) != 0) 4
          ((PyFile.read ⟨truncFile16, 335⟩ 4).1)).length = 4
      ∧ (paddedOut ((3 &&& Mode.UNSIGNED) != 0) 4
          ((PyFile.read ⟨truncFile16, 335⟩ 4).1)).drop
          ((PyFile.read ⟨truncFile16, 335⟩ 4).1.length)
          = List.replicate (4 - (PyFile.read ⟨truncFile16, 335⟩ 4).1.length)
            0 :=
  (truncation_returns_short_or_padded ⟨truncFile16, 239⟩ 4 3
    ⟨truncFile16, 335⟩ (by rfl)).2 (by decide) (by decide)

set_option maxRecDepth 10000 in
/-- C2 counterexample: `truncFile8` declares `data_length = 4` for its only
sample but holds just 2 payload bytes (the file is 337 bytes long and the
payload starts at offset 335); `read` nevertheless returns `Error.OK` with
the short 2-byte buffer instead of any read-failure error. -/
theorem truncated_read_returns_ok_short_buffer :
    (sampleHeader ⟨truncFile8, 239⟩).1 = 4 ∧ truncFile8.length = 337 ∧
      read truncFile8 = some ⟨Error.OK, "", [⟨[16, 32], 1⟩]⟩ :=
  ⟨by rfl, by rfl, by rfl⟩

theorem intFromBytesLE_drop_take (l : List Nat) (k : Nat) :
    intFromBytesLE ((l.drop k).take 1) = l.getD k 0 := by
  induction k generalizing l with
  | zero => cases l <;> simp [intFromBytesLE]
  | succ k ih =>
    cases l with
    | nil => simp [intFromBytesLE]
    | cons b bs => simpa using ih bs

/-- C3: any input whose first 11 bytes differ from both magic strings is
rejected with BAD_HEADER and the message `Invalid Gravis patch file.`,
whatever the rest of the file holds, and no samples are produced. -/
theorem bad_magic_reports_bad_header (file : List Nat)
    (h1 : file.take 11 ≠ magic110) (h2 : file.take 11 ≠ magic100) :
    read file = some ⟨Error.BAD_HEADER, "Invalid Gravis patch file.", []⟩ := by
  simp only [read, PyFile.read, List.drop_zero]
  rw [if_pos ⟨h1, h2⟩]

theorem bad_magic_reports_bad_header_witness :
    read [] = some ⟨Error.BAD_HEADER, "Invalid Gravis patch file.", []⟩ :=
  bad_magic_reports_bad_header [] (by decide) (by decide)

/-- C8: with a correct magic string and a zero sample-count byte at offset
198 (a byte the reader takes as 0, with no zero-correction), `read` returns
`Error.OK` with an empty samples list. -/
theorem zero_sample_count_yields_ok_empty (file : List Nat)
    (hm : file.take 11 = magic110 ∨ file.take 11 = magic100)
    (hs : file.getD 198 0 = 0) :
    read file = some ⟨Error.OK, "", []⟩ := by
  have hni :
      ¬(zeroCorrect (intFromBytesLE ((file.drop 82).take 1)) ≤ 0) := by
    have := zeroCorrect_pos (intFromBytesLE ((file.drop 82).take 1))
    omega
  have hnl :
      ¬(zeroCorrect (intFromBytesLE ((file.drop 151).take 1)) ≤ 0) := by
    have := zeroCorrect_pos (intFromBytesLE ((file.drop 151).take 1))
    omega
  simp only [read, PyFile.read, PyFile.seekSet, PyFile.seekCur,
    List.drop_zero]
  rw [if_neg (by rcases hm with h | h <;> simp [h])]
  rw [if_neg hni, if_neg hnl]
  rw [intFromBytesLE_drop_take file 198, hs]
  rfl

theorem zero_sample_count_yields_ok_empty_witness :
    read okFile = some ⟨Error.OK, "", []⟩ :=
  zero_sample_count_yields_ok_empty okFile (Or.inl (by rfl)) (by rfl)

/-- C9: the corrected instrument and layer counts are always at least 1, so
the TOO_MANY_INSTRUMENTS and TOO_MANY_LAYERS guard branches are unreachable:
no `Result` produced by `read` carries either error kind. -/
theorem too_many_guards_unreachable :
    (∀ n, 1 ≤ zeroCorrect n)
    ∧ ∀ (file : List Nat) (r : Result), read file = some r →
        r.error ≠ Error.TOO_MANY_INSTRUMENTS ∧
          r.error ≠ Error.TOO_MANY_LAYERS := by
  refine ⟨zeroCorrect_pos, ?_⟩
  intro file r h
  simp only [read] at h
  split at h
  · injection h with h'
    subst h'
    exact ⟨by simp, by simp⟩
  · split at h
    · rename_i hguard
      unfold zeroCorrect at hguard
      split at hguard <;> omega
    · split at h
      · rename_i hguard
        unfold zeroCorrect at hguard
        split at hguard <;> omega
      · split at h
        · simp at h
        · injection h with h'
          subst h'
          exact ⟨by simp, by simp⟩

theorem too_many_guards_unreachable_witness :
    ((⟨Error.BAD_HEADER, "Invalid Gravis patch file.", []⟩ : Result).error ≠
        Error.TOO_MANY_INSTRUMENTS) ∧
      ((⟨Error.BAD_HEADER, "Invalid Gravis patch file.", []⟩ : Result).error ≠
        Error.TOO_MANY_LAYERS) :=
  too_many_guards_unreachable.2 []
    ⟨Error.BAD_HEADER, "Invalid Gravis patch file.", []⟩ (by rfl)

set_option maxRecDepth 10000 in
/-- C4 counterexample: `okFile` has a correct magic string and a zero
sample-count byte; `read` returns a `Result` whose samples list is empty
while its error is `Error.OK`, so an empty samples list does not imply that
an error occurred. -/
theorem empty_samples_with_ok_error :
    read okFile = some ⟨Error.OK, "", []⟩ := by rfl

/-- C4 (amended): a `Result` with an error kind other than OK carries an
empty samples list; the converse fails, since a zero sample count yields an
empty list with `Error.OK`. -/
theorem error_implies_empty_samples (file : List Nat) (r : Result)
    (h : read file = some r) (he : r.error ≠ Error.OK) : r.samples = [] := by
  simp only [read] at h
  split at h
  · injection h with h'
    subst h'
    rfl
  · split at h
    · injection h with h'
      subst h'
      rfl
    · split at h
      · injection h with h'
        subst h'
        rfl
      · split at h
        · simp at h
        · injection h with h'
          subst h'
          exact absurd rfl he

theorem error_implies_empty_samples_witness :
    (⟨Error.BAD_HEADER, "Invalid Gravis patch file.", []⟩ : Result).samples
      = [] :=
  error_implies_empty_samples []
    ⟨Error.BAD_HEADER, "Invalid Gravis patch file.", []⟩ (by rfl) (by decide)

end Patreader
